import Mathlib

/-!
# Verification of the todo-app storage and presentation layers

Shallow embedding of the storage layer (`src/lib/db.ts`) and the relevant
presentation-layer actions (`src/app/index.tsx`) of the todo application.

Modelling conventions:
* The SQLite database handle is modelled as an explicit state value `DB`
  holding the `PRAGMA user_version` cell (a natural number, `0` on a fresh
  database) and the `todos` table, which is `none` while the table has not
  been created and `some rows` afterwards (rows in storage order).
* Timestamps: the code stores `createdAt` as an ISO-8601 string produced by
  `Date.toISOString()` and the display comparator parses it back with
  `new Date(...).getTime()`; this round trip is exact and order-isomorphic
  to the underlying epoch-milliseconds instant, so `createdAt` is modelled
  directly as the instant (a `Nat` of epoch milliseconds).
* Nondeterministic inputs of the code — `crypto.randomUUID()` and
  `new Date()` — become explicit parameters of the embedded operations.
* Fallible SQLite statements are modelled with `Except String`: a statement
  against a missing table fails, and an `INSERT` violating the `PRIMARY KEY`
  constraint on `id` fails, exactly as `expo-sqlite` would reject.
-/

/-- A row of the `todos` table: columns `id` (TEXT PRIMARY KEY), `text`
(TEXT NOT NULL), `status` (TEXT NOT NULL) and `createdAt` (TEXT NOT NULL,
modelled as the epoch-millisecond instant it encodes). -/
structure TodoItem where
  id : String
  text : String
  status : String
  createdAt : Nat
  deriving Repr, DecidableEq

/-- The embedded database: the `PRAGMA user_version` cell and the `todos`
table (`none` until `CREATE TABLE` has run). -/
structure DB where
  userVersion : Nat
  todosTable : Option (List TodoItem)
  deriving Repr, DecidableEq

/-- A freshly opened database file: no table yet, `user_version` is 0. -/
def DB.fresh : DB := { userVersion := 0, todosTable := none }

/-- Epoch milliseconds of the seed timestamp `2023-01-01T00:00:00Z`. -/
def seedTime1 : Nat := 1672531200000

/-- Epoch milliseconds of the seed timestamp `2023-01-02T00:00:00Z`. -/
def seedTime2 : Nat := 1672617600000

/-- Epoch milliseconds of the seed timestamp `2023-01-03T00:00:00Z`. -/
def seedTime3 : Nat := 1672704000000

/-- The three seed rows inserted by `initializeDB` (`src/lib/db.ts:37-39`),
parametrised by the three `crypto.randomUUID()` results. -/
def seedRows (id1 id2 id3 : String) : List TodoItem :=
  [ { id := id1, text := "Sample Todo from DB", status := "pending",
      createdAt := seedTime1 },
    { id := id2, text := "Sample Todo 2 from DB", status := "done",
      createdAt := seedTime2 },
    { id := id3, text := "Sample Todo 3 from DB", status := "done",
      createdAt := seedTime3 } ]

/-- Model of `initializeDB` (`src/lib/db.ts:29-41`): sets the journal mode (no
observable effect on the modelled state), runs
`CREATE TABLE IF NOT EXISTS todos ...` — which keeps an existing table's
contents — and appends the three seed rows. The three `crypto.randomUUID()`
calls are the parameters `id1 id2 id3`. -/
def initializeDB (id1 id2 id3 : String) (db : DB) : DB :=
  { db with todosTable := some (db.todosTable.getD [] ++ seedRows id1 id2 id3) }

/-- Model of `migrateDB` (`src/lib/db.ts:7-26`): reads `PRAGMA user_version`
(defaulting to 0), returns early when it already equals
`DATABASE_VERSION = 1`, runs `initializeDB` when it is 0, and finishes by
writing `PRAGMA user_version = 1` unconditionally. The local reassignment
`currentDbVersion = 1` after initialization is dead in the source (nothing
reads it afterwards) and is not modelled. -/
def migrateDB (id1 id2 id3 : String) (db : DB) : DB :=
  let DATABASE_VERSION : Nat := 1
  let currentDbVersion := db.userVersion
  if currentDbVersion = DATABASE_VERSION then db
  else
    let db1 := if currentDbVersion = 0 then initializeDB id1 id2 id3 db else db
    { db1 with userVersion := DATABASE_VERSION }

/-- Model of `getAllTodos` (`src/lib/db.ts:53-56`): `SELECT * FROM todos;` — fails if
the table does not exist, otherwise returns all rows in storage order. -/
def getAllTodos (db : DB) : Except String (List TodoItem) :=
  match db.todosTable with
  | none => .error "no such table: todos"
  | some rows => .ok rows

/-- The row built by `insertTodo` (`src/lib/db.ts:59-64`): the fresh
`crypto.randomUUID()` as `id`, the given `text`, the literal `'pending'`
as status and the current instant as `createdAt`. -/
def newTodo (text id : String) (now : Nat) : TodoItem :=
  { id := id, text := text, status := "pending", createdAt := now }

/-- Model of `insertTodo` (`src/lib/db.ts:58-66`): `INSERT INTO todos ... VALUES
(?, ?, 'pending', ?)` with a fresh `crypto.randomUUID()` as `id` and the
current instant as `createdAt` (both explicit parameters here). Fails if
the table does not exist or the `PRIMARY KEY` constraint on `id` is
violated. -/
def insertTodo (db : DB) (text : String) (id : String) (now : Nat) :
    Except String DB :=
  match db.todosTable with
  | none => .error "no such table: todos"
  | some rows =>
    if rows.any (fun r => r.id = id) then
      .error "UNIQUE constraint failed: todos.id"
    else
      .ok { db with todosTable := some (rows ++ [newTodo text id now]) }

/-- Model of `updateTodo` (`src/lib/db.ts:68-73`): `UPDATE todos SET status = ?
WHERE id = ?;` — overwrites `status` on every row whose `id` matches, a
no-op on the rows when no row matches. Fails only if the table does not
exist. -/
def updateTodo (db : DB) (status : String) (id : String) : Except String DB :=
  match db.todosTable with
  | none => .error "no such table: todos"
  | some rows =>
    .ok { db with
          todosTable := some (rows.map (fun r =>
            if r.id = id then { r with status := status } else r)) }

theorem migrateDB_userVersion (id1 id2 id3 : String) (db : DB) :
    (migrateDB id1 id2 id3 db).userVersion = 1 := by
  unfold migrateDB
  by_cases h : db.userVersion = 1 <;> simp [h]

theorem migrateDB_at_target (id1 id2 id3 : String) (db : DB)
    (h : db.userVersion = 1) : migrateDB id1 id2 id3 db = db := by
  unfold migrateDB
  simp [h]

/-- C1: `migrateDB` is idempotent: a second run (with its own fresh seed
ids) returns the state of the first run unchanged — same persisted schema
version, same row count, no duplicate table creation, no duplicate seed
rows. -/
theorem migrateDB_idempotent (id1 id2 id3 id4 id5 id6 : String) (db : DB) :
    migrateDB id4 id5 id6 (migrateDB id1 id2 id3 db) =
      migrateDB id1 id2 id3 db :=
  migrateDB_at_target id4 id5 id6 _ (migrateDB_userVersion id1 id2 id3 db)

theorem migrateDB_at_zero (id1 id2 id3 : String) (db : DB)
    (h0 : db.userVersion = 0) :
    migrateDB id1 id2 id3 db =
      { userVersion := 1,
        todosTable := some (db.todosTable.getD [] ++ seedRows id1 id2 id3) } := by
  unfold migrateDB initializeDB
  simp [h0]

theorem migrateDB_other_version (id1 id2 id3 : String) (db : DB)
    (h0 : db.userVersion ≠ 0) (h1 : db.userVersion ≠ 1) :
    migrateDB id1 id2 id3 db = { db with userVersion := 1 } := by
  unfold migrateDB
  simp [h0, h1]

/-- C2: case analysis of `migrateDB` with its target version `1`
(`DATABASE_VERSION` in the source): at the target it is an early-return
no-op; at version 0 it creates the table if absent, appends the seed rows
and writes the target version; at any other version it only writes the
target version back. -/
theorem migrateDB_cases (id1 id2 id3 : String) (db : DB) :
    (db.userVersion = 1 → migrateDB id1 id2 id3 db = db) ∧
    (db.userVersion = 0 → migrateDB id1 id2 id3 db =
      { userVersion := 1,
        todosTable := some (db.todosTable.getD [] ++ seedRows id1 id2 id3) }) ∧
    (db.userVersion ≠ 0 → db.userVersion ≠ 1 →
      migrateDB id1 id2 id3 db = { db with userVersion := 1 }) :=
  ⟨fun h => migrateDB_at_target id1 id2 id3 db h,
   fun h0 => migrateDB_at_zero id1 id2 id3 db h0,
   fun h0 h1 => migrateDB_other_version id1 id2 id3 db h0 h1⟩

theorem migrateDB_cases_witness :
    DB.fresh.userVersion = 0 ∧
    migrateDB "a" "b" "c" DB.fresh =
      { userVersion := 1, todosTable := some (seedRows "a" "b" "c") } :=
  ⟨rfl, (migrateDB_cases "a" "b" "c" DB.fresh).2.1 rfl⟩

/-- C10: for every persisted version different from 1, `migrateDB` finishes
with persisted version 1; when the stored version is greater than 1 no
initialization runs (the table is untouched) but the version is still
lowered to 1 — there is no downgrade guard. -/
theorem migrateDB_nontarget (id1 id2 id3 : String) (db : DB)
    (h : db.userVersion ≠ 1) :
    (migrateDB id1 id2 id3 db).userVersion = 1 ∧
    (1 < db.userVersion →
      (migrateDB id1 id2 id3 db).todosTable = db.todosTable) := by
  refine ⟨migrateDB_userVersion id1 id2 id3 db, fun hgt => ?_⟩
  have h0 : db.userVersion ≠ 0 := by omega
  rw [migrateDB_other_version id1 id2 id3 db h0 h]

theorem migrateDB_nontarget_witness :
    (migrateDB "a" "b" "c"
        { userVersion := 5, todosTable := some [] }).userVersion = 1 ∧
    (migrateDB "a" "b" "c"
        { userVersion := 5, todosTable := some [] }).todosTable = some [] :=
  ⟨(migrateDB_nontarget "a" "b" "c" _ (by decide)).1,
   (migrateDB_nontarget "a" "b" "c" _ (by decide)).2 (by decide)⟩

/-- A concrete sample row used to instantiate the theorems below. -/
def rowX : TodoItem :=
  { id := "x", text := "buy milk", status := "pending", createdAt := 3 }

/-- A concrete one-row database at schema version 1. -/
def dbX : DB := { userVersion := 1, todosTable := some [rowX] }

/-- C3: after a successful insert with a fresh id, `getAllTodos` returns the
old rows plus exactly one new row whose id is the fresh id, whose text is
the given text (the empty string included — no validation at this layer),
whose status is `"pending"` and whose createdAt is the instant of
insertion; the fresh id occurs exactly once in the result. -/
theorem insertTodo_listAll (db : DB) (rows : List TodoItem)
    (text id : String) (now : Nat) (htable : db.todosTable = some rows)
    (hfresh : ∀ r ∈ rows, r.id ≠ id) :
    ∃ db', insertTodo db text id now = .ok db' ∧
      getAllTodos db' = .ok (rows ++ [newTodo text id now]) ∧
      (rows ++ [newTodo text id now]).countP (fun r => r.id = id) = 1 := by
  have hany : rows.any (fun r => decide (r.id = id)) = false := by
    simp only [List.any_eq_false, decide_eq_true_eq]
    exact hfresh
  refine ⟨{ db with todosTable := some (rows ++ [newTodo text id now]) },
    ?_, ?_, ?_⟩
  · unfold insertTodo
    rw [htable]
    simp [hany]
  · unfold getAllTodos
    simp
  · rw [List.countP_append]
    have h0 : rows.countP (fun r => decide (r.id = id)) = 0 := by
      rw [List.countP_eq_zero]
      intro r hr
      simpa using hfresh r hr
    simp [h0, List.countP_cons, newTodo]

theorem insertTodo_listAll_witness :
    ∃ db', insertTodo dbX "" "y" 7 = .ok db' ∧
      getAllTodos db' = .ok ([rowX] ++ [newTodo "" "y" 7]) ∧
      ([rowX] ++ [newTodo "" "y" 7]).countP (fun r => r.id = "y") = 1 :=
  insertTodo_listAll dbX [rowX] "" "y" 7 rfl (by decide)

/-- C4: updating the status of a present id to `"done"` succeeds and, row by
row, leaves id, text and createdAt unchanged everywhere, sets status to
`"done"` on the matching row and leaves the status of every other row
unchanged (frame condition). -/
theorem updateTodo_done_frame (db : DB) (rows : List TodoItem) (id : String)
    (htable : db.todosTable = some rows) (_hmem : ∃ r ∈ rows, r.id = id) :
    ∃ db' rows', updateTodo db "done" id = .ok db' ∧
      getAllTodos db' = .ok rows' ∧ rows'.length = rows.length ∧
      ∀ i, i < rows.length →
        ∃ r r', rows[i]? = some r ∧ rows'[i]? = some r' ∧
          r'.id = r.id ∧ r'.text = r.text ∧ r'.createdAt = r.createdAt ∧
          r'.status = (if r.id = id then "done" else r.status) := by
  refine ⟨{ db with todosTable := some (rows.map (fun r =>
        if r.id = id then { r with status := "done" } else r)) },
    rows.map (fun r => if r.id = id then { r with status := "done" } else r),
    ?_, ?_, ?_, ?_⟩
  · unfold updateTodo
    rw [htable]
  · unfold getAllTodos
    simp
  · simp
  · intro i hi
    refine ⟨rows[i],
      if rows[i].id = id then { rows[i] with status := "done" } else rows[i],
      List.getElem?_eq_getElem hi, ?_, ?_⟩
    · rw [List.getElem?_map, List.getElem?_eq_getElem hi]
      rfl
    · by_cases h : rows[i].id = id <;> simp [h]

theorem updateTodo_done_frame_witness :
    ∃ db' rows', updateTodo dbX "done" "x" = .ok db' ∧
      getAllTodos db' = .ok rows' ∧
      rows'.length = ([rowX] : List TodoItem).length ∧
      ∀ i, i < ([rowX] : List TodoItem).length →
        ∃ r r', ([rowX] : List TodoItem)[i]? = some r ∧ rows'[i]? = some r' ∧
          r'.id = r.id ∧ r'.text = r.text ∧ r'.createdAt = r.createdAt ∧
          r'.status = (if r.id = "x" then "done" else r.status) :=
  updateTodo_done_frame dbX [rowX] "x" rfl (by decide)

theorem map_update_no_match (status tid : String) (rows : List TodoItem)
    (hnone : ∀ r ∈ rows, r.id ≠ tid) :
    rows.map (fun r => if r.id = tid then { r with status := status } else r)
      = rows := by
  calc rows.map (fun r =>
        if r.id = tid then { r with status := status } else r)
      = rows.map (fun r => r) :=
        List.map_congr_left (fun r hr => if_neg (hnone r hr))
    _ = rows := List.map_id rows

theorem set_table_self (db : DB) (rows : List TodoItem)
    (h : db.todosTable = some rows) :
    ({ db with todosTable := some rows } : DB) = db := by
  cases db
  simp_all

/-- C5: updating with an id that matches no row succeeds (no error) and
returns the store completely unchanged. -/
theorem updateTodo_unknown_id (db : DB) (rows : List TodoItem)
    (status tid : String) (htable : db.todosTable = some rows)
    (hnone : ∀ r ∈ rows, r.id ≠ tid) :
    updateTodo db status tid = .ok db := by
  unfold updateTodo
  rw [htable]
  simp only [map_update_no_match status tid rows hnone,
    set_table_self db rows htable]

theorem updateTodo_unknown_id_witness :
    updateTodo dbX "done" "zzz" = .ok dbX :=
  updateTodo_unknown_id dbX [rowX] "done" "zzz" rfl (by decide)

/-- Component state of `TodoList` (`src/app/index.tsx:137-151`): the
database handle from context and the in-memory copy `todos` of the last
loaded record set. -/
structure UIState where
  db : DB
  todos : List TodoItem
  deriving Repr, DecidableEq

/-- The new-status expression of `toggleTodo` (`src/app/index.tsx:169`):
`todo.status === "pending" ? "done" : "pending"`. -/
def oppositeStatus (s : String) : String :=
  if s = "pending" then "done" else "pending"

/-- Model of `toggleTodo` (`src/app/index.tsx:166-173`): looks the id up in the
in-memory `todos` (silent return when absent), computes the new status as
the opposite of the found record's current status, runs `updateTodo`,
re-fetches with `getAllTodos` and stores the result. -/
def toggleTodo (s : UIState) (id : String) : Except String UIState :=
  match s.todos.find? (fun t => t.id = id) with
  | none => .ok s
  | some todo =>
    match updateTodo s.db (oppositeStatus todo.status) id with
    | .error e => .error e
    | .ok db' =>
      match getAllTodos db' with
      | .error e => .error e
      | .ok updatedTodos => .ok { db := db', todos := updatedTodos }

/-- Model of `addTodo` (`src/app/index.tsx:160-164`): `insertTodo`, then
`getAllTodos`, then store the fresh list. -/
def addTodo (s : UIState) (text : String) (id : String) (now : Nat) :
    Except String UIState :=
  match insertTodo s.db text id now with
  | .error e => .error e
  | .ok db' =>
    match getAllTodos db' with
    | .error e => .error e
    | .ok todos => .ok { db := db', todos := todos }

/-- A status value the system is allowed to store. -/
def validStatus (s : String) : Prop := s = "pending" ∨ s = "done"

/-- The `FlatList` display-sort comparator (`src/app/index.tsx:184-193`):
records of different status order with `'pending'` first; records of equal
status order by descending creation time (`bDate.getTime() -
aDate.getTime()`). The `?? new Date(0)` fallback of the source never fires
because `createdAt` is NOT NULL, so it is not modelled. -/
def displayCompare (a b : TodoItem) : Int :=
  if a.status ≠ b.status then
    if a.status = "pending" then -1 else 1
  else
    (b.createdAt : Int) - (a.createdAt : Int)

/-- C8: when the id is found in the loaded record set, the toggle action
computes the opposite of that record's current status (`"pending"` becomes
`"done"`, `"done"` becomes `"pending"`), passes it to `updateTodo`, and
then reloads via `getAllTodos`. -/
theorem toggleTodo_spec (s : UIState) (id : String) (todo : TodoItem)
    (hfind : s.todos.find? (fun t => t.id = id) = some todo)
    (db' : DB)
    (hupd : updateTodo s.db (oppositeStatus todo.status) id = .ok db')
    (ts : List TodoItem) (hlist : getAllTodos db' = .ok ts) :
    toggleTodo s id = .ok { db := db', todos := ts } ∧
    oppositeStatus "pending" = "done" ∧ oppositeStatus "done" = "pending" := by
  refine ⟨?_, by simp [oppositeStatus], by simp [oppositeStatus]⟩
  unfold toggleTodo
  simp only [hfind, hupd, hlist]

/-- A concrete done row and one-row database for the instantiations. -/
def rowXdone : TodoItem :=
  { id := "x", text := "buy milk", status := "done", createdAt := 3 }

/-- The database `dbX` after the sample row was marked done. -/
def dbXdone : DB := { userVersion := 1, todosTable := some [rowXdone] }

theorem toggleTodo_spec_witness :
    toggleTodo { db := dbX, todos := [rowX] } "x" =
      .ok { db := dbXdone, todos := [rowXdone] } ∧
    oppositeStatus "pending" = "done" ∧ oppositeStatus "done" = "pending" :=
  toggleTodo_spec { db := dbX, todos := [rowX] } "x" rowX rfl dbXdone
    rfl [rowXdone] rfl

/-- C9: the display comparator is a total order putting every pending
record before every done record, and ordering records of equal status by
descending creation time: it is negative on (pending, done) pairs,
positive on (done, pending) pairs, equals the creation-time difference on
equal statuses (negative exactly when the first record is newer), and is
antisymmetric on records with valid statuses. -/
theorem displayCompare_spec (a b : TodoItem) :
    (a.status = "pending" → b.status = "done" → displayCompare a b < 0) ∧
    (a.status = "done" → b.status = "pending" → 0 < displayCompare a b) ∧
    (a.status = b.status →
      displayCompare a b = (b.createdAt : Int) - (a.createdAt : Int) ∧
      (displayCompare a b < 0 ↔ b.createdAt < a.createdAt)) ∧
    (validStatus a.status → validStatus b.status →
      displayCompare b a = -displayCompare a b) := by
  refine ⟨fun ha hb => ?_, fun ha hb => ?_, fun heq => ⟨?_, ?_⟩,
    fun hva hvb => ?_⟩
  · simp [displayCompare, ha, hb]
  · simp [displayCompare, ha, hb]
  · simp [displayCompare, heq]
  · simp [displayCompare, heq, Int.sub_neg, Nat.cast_lt]
  · rcases hva with ha | ha <;> rcases hvb with hb | hb <;>
      simp [displayCompare, ha, hb]

theorem displayCompare_spec_witness :
    displayCompare rowX rowXdone < 0 ∧
    displayCompare rowXdone rowX = -displayCompare rowX rowXdone :=
  ⟨(displayCompare_spec rowX rowXdone).1 rfl rfl,
   (displayCompare_spec rowX rowXdone).2.2.2 (Or.inl rfl) (Or.inr rfl)⟩

/-- Every row of the store (when the table exists) has a valid status. -/
def statusOK (db : DB) : Prop :=
  ∀ rows, db.todosTable = some rows → ∀ r ∈ rows, validStatus r.status

theorem statusOK_none (v : Nat) :
    statusOK { userVersion := v, todosTable := none } :=
  fun _ hrows => Option.noConfusion hrows

theorem statusOK_some (v : Nat) (L : List TodoItem) :
    statusOK { userVersion := v, todosTable := some L } ↔
      ∀ r ∈ L, validStatus r.status := by
  constructor
  · exact fun h => h L rfl
  · intro h rows hrows
    injection hrows with h'
    subst h'
    exact h

theorem statusOK_seedRows (id1 id2 id3 : String) :
    ∀ r ∈ seedRows id1 id2 id3, validStatus r.status := by
  intro r hr
  simp only [seedRows, List.mem_cons, List.not_mem_nil, or_false] at hr
  rcases hr with h | h | h <;> subst h <;> simp [validStatus]

theorem statusOK_migrateDB (id1 id2 id3 : String) (db : DB)
    (h : statusOK db) : statusOK (migrateDB id1 id2 id3 db) := by
  by_cases h1 : db.userVersion = 1
  · rw [migrateDB_at_target id1 id2 id3 db h1]
    exact h
  by_cases h0 : db.userVersion = 0
  · rw [migrateDB_at_zero id1 id2 id3 db h0]
    refine (statusOK_some _ _).mpr ?_
    intro r hr
    rcases List.mem_append.mp hr with hm | hm
    · cases ht : db.todosTable with
      | none => rw [ht] at hm; simp at hm
      | some t =>
        rw [ht] at hm
        exact h t ht r hm
    · exact statusOK_seedRows id1 id2 id3 r hm
  · rw [migrateDB_other_version id1 id2 id3 db h0 h1]
    intro rows hrows r hr
    exact h rows hrows r hr

theorem statusOK_insertTodo (db db' : DB) (text id : String) (now : Nat)
    (hok : insertTodo db text id now = .ok db') (h : statusOK db) :
    statusOK db' := by
  unfold insertTodo at hok
  split at hok
  · exact absurd hok (by simp)
  next rows ht =>
    split at hok
    · exact absurd hok (by simp)
    · injection hok with h'
      subst h'
      refine (statusOK_some _ _).mpr ?_
      intro r hr
      rcases List.mem_append.mp hr with hm | hm
      · exact h rows ht r hm
      · simp only [List.mem_cons, List.not_mem_nil, or_false] at hm
        subst hm
        exact Or.inl rfl

theorem statusOK_updateTodo (db db' : DB) (status tid : String)
    (hok : updateTodo db status tid = .ok db')
    (hval : validStatus status) (h : statusOK db) : statusOK db' := by
  unfold updateTodo at hok
  split at hok
  · exact absurd hok (by simp)
  next rows ht =>
    injection hok with h'
    subst h'
    refine (statusOK_some _ _).mpr ?_
    intro r hr
    rcases List.mem_map.mp hr with ⟨r0, hr0, hmap⟩
    subst hmap
    by_cases hid : r0.id = tid
    · simp only [if_pos hid]
      exact hval
    · simp only [if_neg hid]
      exact h rows ht r0 hr0

theorem validStatus_oppositeStatus (s : String) :
    validStatus (oppositeStatus s) := by
  unfold oppositeStatus
  by_cases hp : s = "pending"
  · rw [if_pos hp]
    exact Or.inr rfl
  · rw [if_neg hp]
    exact Or.inl rfl

theorem statusOK_toggleTodo (db : DB) (todos : List TodoItem) (tid : String)
    (s' : UIState) (hok : toggleTodo { db := db, todos := todos } tid = .ok s')
    (h : statusOK db) : statusOK s'.db := by
  unfold toggleTodo at hok
  split at hok
  · injection hok with h'
    subst h'
    exact h
  next todo hfind =>
    split at hok
    · exact absurd hok (by simp)
    next db' hupd =>
      split at hok
      · exact absurd hok (by simp)
      next ts hlist =>
        injection hok with h'
        subst h'
        exact statusOK_updateTodo db db' (oppositeStatus todo.status) tid hupd
          (validStatus_oppositeStatus todo.status) h

/-- Store states reachable through the system's operations: a fresh
database file, then any sequence of migration, the add action and the
toggle action (the toggle may be issued against any in-memory copy
`todos`). -/
inductive Reachable : DB → Prop where
  | fresh : Reachable DB.fresh
  | migrate (id1 id2 id3 : String) {db : DB} :
      Reachable db → Reachable (migrateDB id1 id2 id3 db)
  | insert (text id : String) (now : Nat) {db db' : DB} :
      Reachable db → insertTodo db text id now = .ok db' → Reachable db'
  | toggle (todos : List TodoItem) (id : String) {db : DB} {s' : UIState} :
      Reachable db → toggleTodo { db := db, todos := todos } id = .ok s' →
      Reachable s'.db

/-- C6: in every reachable store state the status of every record is
`"pending"` or `"done"`; no operation of the system writes any other
status value. -/
theorem reachable_statusOK (db : DB) (h : Reachable db) : statusOK db := by
  induction h with
  | fresh => exact statusOK_none 0
  | migrate id1 id2 id3 _ ih => exact statusOK_migrateDB _ _ _ _ ih
  | insert text id now _ hok ih => exact statusOK_insertTodo _ _ _ _ _ hok ih
  | toggle todos id _ hok ih => exact statusOK_toggleTodo _ _ _ _ hok ih

theorem reachable_statusOK_witness :
    statusOK (migrateDB "a" "b" "c" DB.fresh) :=
  reachable_statusOK _ (Reachable.migrate "a" "b" "c" Reachable.fresh)

/-- Predicate that `rows'` keeps every record of `rows`: each is still present with its
id, text and createdAt intact. -/
def preservesRecords (rows rows' : List TodoItem) : Prop :=
  ∀ r ∈ rows, ∃ r' ∈ rows', r'.id = r.id ∧ r'.text = r.text ∧
    r'.createdAt = r.createdAt

theorem preservesRecords_refl (rows : List TodoItem) :
    preservesRecords rows rows :=
  fun r hr => ⟨r, hr, rfl, rfl, rfl⟩

theorem preservesRecords_append (rows extra : List TodoItem) :
    preservesRecords rows (rows ++ extra) :=
  fun r hr => ⟨r, List.mem_append_left extra hr, rfl, rfl, rfl⟩

/-- C7: no exposed operation deletes a record or changes its id, text or
createdAt: `getAllTodos` returns the stored rows unchanged and has no
state to mutate, and after `migrateDB`, a successful `insertTodo` or a
successful `updateTodo` every previously stored record is still present
with its id, text and createdAt intact (only `updateTodo` mutates at all,
and it touches only `status`). -/
theorem ops_preserve_records (db : DB) (rows : List TodoItem)
    (htable : db.todosTable = some rows) :
    (∀ id1 id2 id3, ∃ rows',
      (migrateDB id1 id2 id3 db).todosTable = some rows' ∧
      preservesRecords rows rows') ∧
    getAllTodos db = .ok rows ∧
    (∀ text id now db', insertTodo db text id now = .ok db' →
      ∃ rows', db'.todosTable = some rows' ∧ preservesRecords rows rows') ∧
    (∀ status tid db', updateTodo db status tid = .ok db' →
      ∃ rows', db'.todosTable = some rows' ∧ preservesRecords rows rows') := by
  refine ⟨?_, ?_, ?_, ?_⟩
  · intro id1 id2 id3
    by_cases h1 : db.userVersion = 1
    · rw [migrateDB_at_target id1 id2 id3 db h1]
      exact ⟨rows, htable, preservesRecords_refl rows⟩
    by_cases h0 : db.userVersion = 0
    · rw [migrateDB_at_zero id1 id2 id3 db h0]
      refine ⟨db.todosTable.getD [] ++ seedRows id1 id2 id3, rfl, ?_⟩
      rw [htable]
      exact preservesRecords_append rows _
    · rw [migrateDB_other_version id1 id2 id3 db h0 h1]
      exact ⟨rows, htable, preservesRecords_refl rows⟩
  · simp only [getAllTodos, htable]
  · intro text id now db' hok
    unfold insertTodo at hok
    split at hok
    · exact absurd hok (by simp)
    next rows0 ht =>
      split at hok
      · exact absurd hok (by simp)
      · injection hok with h'
        subst h'
        have he : rows = rows0 := by
          have h2 := htable.symm.trans ht
          injection h2
        subst he
        exact ⟨rows ++ [newTodo text id now], rfl,
          preservesRecords_append rows _⟩
  · intro status tid db' hok
    unfold updateTodo at hok
    split at hok
    · exact absurd hok (by simp)
    next rows0 ht =>
      injection hok with h'
      subst h'
      have he : rows = rows0 := by
        have h2 := htable.symm.trans ht
        injection h2
      subst he
      refine ⟨rows.map (fun r =>
        if r.id = tid then { r with status := status } else r), rfl, ?_⟩
      intro r hr
      refine ⟨if r.id = tid then { r with status := status } else r,
        List.mem_map_of_mem _ hr, ?_, ?_, ?_⟩ <;>
        by_cases hid : r.id = tid <;> simp [hid]

theorem ops_preserve_records_witness :
    ∃ rows', (migrateDB "a" "b" "c" dbX).todosTable = some rows' ∧
      preservesRecords [rowX] rows' :=
  (ops_preserve_records dbX [rowX] rfl).1 "a" "b" "c"
